import Mathlib

/-!
# Verification of the sern-cli build orchestration core

Shallow embedding of the build subsystem (`build`, `CommandHandlerPlugin`,
`CommandOnEndPlugin`, `resolveBuildConfig` from the build command module) and
proofs of the specified properties: configuration precedence, the validity
gate on `mode`, the define map handed to the bundling engine, idempotent
artifact generation, and the watch-mode run supervisor's debounce/cancel
state machine.

External collaborators (file system, environment, dynamic config import,
bundling engine, process scheduler) are modelled as explicit inputs and
effect traces; machine behaviour is translated directly from the source.
-/

/-! ## Configuration data model

Mirrors the `BuildOptions` type and the CLI `options` record consumed by
`build`.  JS `undefined` is modelled as `Option.none`; string enums stay
strings because invalid values must be representable (the `mode` assert). -/

/-- The CLI `options : Record<string, any>` fields read by `build`. -/
structure CliOptions where
  project : Option String := none
  format : Option String := none
  mode : Option String := none
  sourceMaps : Option Bool := none
  tsconfig : Option String := none
  env : Option String := none
  watch : Bool := false
  watchCommand : Option String := none
  supressWarnings : Bool := false
deriving Repr, DecidableEq

/-- A user-authored `sern.build.js` default export: a partial `BuildOptions`.
Each field is `some` when the key is present in the exported object.
`watch` is `some cmd?` when a `watch` object is present (its own `command`
key optional), since the object spread replaces the whole `watch` field. -/
structure FileConfig where
  defineVersion : Option Bool := none
  format : Option String := none
  mode : Option String := none
  dropLabels : Option (List String) := none
  define : Option (List (String × String)) := none
  tsconfig : Option String := none
  env : Option String := none
  sourcemap : Option (Option Bool) := none
  watch : Option (Option String) := none
deriving Repr, DecidableEq

/-- The resolved `buildConfig` after merging (field `watch.command` is
flattened to `watchCommand`; `include` is unused downstream and omitted). -/
structure BuildConfig where
  defineVersion : Bool
  format : String
  mode : String
  dropLabels : List String
  define : Option (List (String × String))
  tsconfig : String
  env : String
  sourcemap : Option Bool
  watchCommand : Option String
deriving Repr, DecidableEq

/-- `resolveBuildConfig` from the build command module: tsconfig/jsconfig
default depending on the project language. -/
def resolveBuildConfig (path : Option String) (language : String) : String :=
  if language = "javascript" then path.getD "jsconfig.json"
  else path.getD "tsconfig.json"

/-- The `defaultBuildConfig` object literal in `build`: built-in defaults,
with CLI flags already folded in via `??` (or direct assignment). -/
def defaultBuildConfig (opts : CliOptions) (language : String) : BuildConfig where
  defineVersion := true
  format := opts.format.getD "esm"
  mode := opts.mode.getD "development"
  dropLabels := []
  define := none
  sourcemap := opts.sourceMaps
  tsconfig := resolveBuildConfig opts.tsconfig language
  env := opts.env.getD ".env"
  watchCommand := opts.watchCommand

/-- The JS object spread `{ ...defaultBuildConfig, ...fileConfig }`: every
key present in the file config replaces the corresponding default. -/
def mergeConfig (dflt : BuildConfig) (f : FileConfig) : BuildConfig where
  defineVersion := f.defineVersion.getD dflt.defineVersion
  format := f.format.getD dflt.format
  mode := f.mode.getD dflt.mode
  dropLabels := f.dropLabels.getD dflt.dropLabels
  define := match f.define with
    | some d => some d
    | none => dflt.define
  tsconfig := f.tsconfig.getD dflt.tsconfig
  env := f.env.getD dflt.env
  sourcemap := match f.sourcemap with
    | some s => s
    | none => dflt.sourcemap
  watchCommand := match f.watch with
    | some wc => wc
    | none => dflt.watchCommand

/-- Configuration resolution in `build`: defaults (CLI folded in), then the
optional file config spread over them, then the `NODE_ENV` override applied
to `mode` only.  `nodeEnv` is the value of `process.env.NODE_ENV` after the
dotenv load. -/
def resolveConfig (opts : CliOptions) (language : String)
    (fileCfg : Option FileConfig) (nodeEnv : Option String) : BuildConfig :=
  let dflt := defaultBuildConfig opts language
  let merged := match fileCfg with
    | some f => mergeConfig dflt f
    | none => dflt
  match nodeEnv with
  | some m => { merged with mode := m }
  | none => merged

/-! ## The define map (`CommandHandlerPlugin` setup) -/

/-- JS template-string coercion of a boolean. -/
def jsBoolString (b : Bool) : String := if b then "true" else "false"

/-- Object-literal key override: the later key wins over any earlier entry
with the same name (lookup semantics of the JS spread-and-override). -/
def setKey (m : List (String × String)) (k v : String) : List (String × String) :=
  m.filter (fun kv => kv.1 ≠ k) ++ [(k, v)]

/-- Key lookup in the define map. -/
def lookupDefine (m : List (String × String)) (k : String) : Option String :=
  (m.find? (fun kv => kv.1 = k)).map (·.2)

/-- The `options.define` object assembled by `CommandHandlerPlugin.setup`:
the user `define` map (or `{}`), then `__DEV__`, `__PROD__`, `__VERSION__`.
`versionJson` stands for `JSON.stringify(require('package.json').version)`,
an external input. -/
def mkDefines (userDefine : Option (List (String × String))) (mode : String)
    (defineVersion : Bool) (versionJson : String) : List (String × String) :=
  setKey (setKey (setKey (userDefine.getD [])
    "__DEV__" (jsBoolString (mode = "development")))
    "__PROD__" (jsBoolString (mode = "production")))
    "__VERSION__" (if defineVersion then versionJson else "undefined")

/-! ## The build pipeline as an effect trace (`build`)

External outcomes (does the config file exist, does its import succeed, what
is `NODE_ENV` after dotenv, does the tsconfig parse, does `.sern/generated`
exist) are inputs; the pipeline emits effects in source order and stops at
the first thrown error. -/

/-- Observable side effects of `build`, in program order.  `engineContext`
is the creation of the bundling context / compile step. -/
inductive Effect
  | loadDotenv (path : String)
  | parseTsCfg (path : String)
  | mkdirGen
  | writeTsConfigFile
  | writeAmbientFile
  | engineContext
deriving Repr, DecidableEq

/-- Errors thrown by `build` before or during resolution. -/
inductive BuildError
  | invalidArgument
  | configLoadFailed
  | invalidMode
  | missingProjectConfig
deriving Repr, DecidableEq

/-- Outcome of probing and dynamically importing the optional
`sern.build.js`: no file at the resolved path, an existing file whose
dynamic load throws, or a successful load. -/
inductive FileConfigLoad
  | absent
  | loadFailed
  | loaded (f : FileConfig)
deriving Repr, DecidableEq

/-- External-world inputs consumed by one `build` invocation.  `nodeEnv` is
`process.env.NODE_ENV` as observed after the dotenv load (the env file may
set it). -/
structure BuildWorld where
  language : String
  fileCfg : FileConfigLoad
  nodeEnv : Option String
  tsconfigOk : Bool
  genDirExists : Bool
deriving Repr, DecidableEq

/-- The successfully imported file config, if any. -/
def loadedFileConfig (w : BuildWorld) : Option FileConfig :=
  match w.fileCfg with
  | .loaded f => some f
  | _ => none

/-- The configuration `build` resolves in world `w`. -/
def resolvedConfig (opts : CliOptions) (w : BuildWorld) : BuildConfig :=
  resolveConfig opts w.language (loadedFileConfig w) w.nodeEnv

/-- The `build` entry point as a trace transformer: returns the effects
emitted (in order) and either the resolved config or the thrown error.
Follows the source line by line: watch-command usage check, file-config
merge, dotenv load, `NODE_ENV` override, the mode assert, tsconfig parse,
generated-dir creation, then plugin setup (artifact writes) and the
bundling context. -/
def build (opts : CliOptions) (w : BuildWorld) :
    List Effect × Except BuildError BuildConfig :=
  if !opts.watch && opts.watchCommand.isSome then
    ([], .error .invalidArgument)
  else if w.fileCfg = .loadFailed then
    ([], .error .configLoadFailed)
  else
    let cfg := resolvedConfig opts w
    let effs0 := [Effect.loadDotenv cfg.env]
    if !(cfg.mode = "development" || cfg.mode = "production") then
      (effs0, .error .invalidMode)
    else
      let effs1 := effs0 ++ [Effect.parseTsCfg cfg.tsconfig]
      if !w.tsconfigOk then
        (effs1, .error .missingProjectConfig)
      else
        let effs2 := effs1 ++ (if w.genDirExists then [] else [Effect.mkdirGen])
        (effs2 ++ [Effect.writeTsConfigFile, Effect.writeAmbientFile,
                   Effect.engineContext], .ok cfg)

/-! ## Artifact generation (`Preprocessor.writeTsConfig` / `writeAmbientFile`)

Modelled from the spec: the `Preprocessor` utility module is not among the
provided sources (only its call sites in `CommandHandlerPlugin` are).  Per
the spec, it writes a type-ambient declaration exposing each symbolic
define as a typed global constant and a project type-configuration file
whose module settings match the resolved `format`; both are pure functions
of `(format, defines)` and each write is a full overwrite. -/

/-- Modelled from the spec: the ambient declaration file content — one
declared global constant per define-map entry. -/
def ambientFileContent (defines : List (String × String)) : String :=
  String.intercalate "\n"
    (defines.map (fun kv => "declare const " ++ kv.1 ++ ": string;"))

/-- Modelled from the spec: the generated project type-configuration file
content — module shape matching the resolved `format`. -/
def tsConfigContent (format : String) : String :=
  "\x7b \"compilerOptions\": \x7b \"module\": \"" ++
    (if format = "cjs" then "CommonJS" else "ESNext") ++ "\" \x7d \x7d"

/-- A file system as path-content associations; the most recent write for a
path shadows older entries. -/
def FsState := List (String × String)

/-- Full-overwrite file write. -/
def fsWrite (fs : FsState) (path content : String) : FsState :=
  (path, content) :: fs

/-- File read: the most recently written content for the path. -/
def fsRead (fs : FsState) (path : String) : Option String :=
  (List.find? (fun kv => kv.1 = path) fs).map (·.2)

/-- The two artifact writes performed by `CommandHandlerPlugin.setup`, in
source order: project tsconfig first, then the ambient file. -/
def writeArtifacts (format : String) (defines : List (String × String))
    (tsPath ambientPath : String) (fs : FsState) : FsState :=
  fsWrite (fsWrite fs tsPath (tsConfigContent format))
    ambientPath (ambientFileContent defines)

/-! ## The watch run supervisor (`CommandOnEndPlugin`)

The plugin closure holds three mutable variables (`isFirstBuild`,
`currentProcess`, `restartTimeout`).  The surrounding world — which
subprocesses are alive and which scheduler timers are pending — is modelled
explicitly so the at-most-one-subprocess property is a statement about the
world, not about the closure's own bookkeeping.  Identifiers for processes
and timers are drawn from a fresh counter.  `clearTimeout` removes the
timer with the given identifier; `cancel()` kills the process behind the
held handle (identifiers are globally fresh, so removal by identifier is
exact). -/

/-- Presence of each package-manager lock file probed by the command
fallback, in the source's probe order. -/
structure Lockfiles where
  packageLock : Bool
  yarnLock : Bool
  pnpmLockYaml : Bool
  bunLockb : Bool
  bunLock : Bool
deriving Repr, DecidableEq

/-- The lock-file probe chain: first match wins, none found models the
thrown `default package manager start command not found` error. -/
def probeLock (l : Lockfiles) : Option String :=
  if l.packageLock then some "npm start"
  else if l.yarnLock then some "yarn start"
  else if l.pnpmLockYaml then some "pnpm start"
  else if l.bunLockb then some "bun start"
  else if l.bunLock then some "bun start"
  else none

/-- `const cmd = watchCommand || (probe)` — JS `||` falls through on the
empty string as well as on `undefined`. -/
def resolveCmd (watchCommand : Option String) (l : Lockfiles) : Option String :=
  match watchCommand with
  | some c => if c = "" then probeLock l else some c
  | none => probeLock l

/-- Observable actions of one supervisor step. -/
inductive SupAction
  | cancelled (pid : Nat)
  | clearedTimer (tid : Nat)
  | scheduled (tid : Nat) (cmd : String)
  | spawned (pid : Nat) (cmd : String)
  | skippedEmpty
  | noStartCommandFound
deriving Repr, DecidableEq

/-- Supervisor closure state plus the world it acts on.  `liveProcs` are the
alive subprocess identifiers; `pendingTimers` the scheduled-but-unfired
debounce timers with the command each would run; `nextId` supplies fresh
identifiers.  The closure fields keep their source names; note the source
never nulls `restartTimeout` when a timer fires nor `currentProcess` when a
process exits on its own, and the model keeps that behaviour. -/
structure SupState where
  isFirstBuild : Bool := true
  currentProcess : Option Nat := none
  restartTimeout : Option Nat := none
  liveProcs : List Nat := []
  pendingTimers : List (Nat × String) := []
  nextId : Nat := 0
deriving Repr, DecidableEq

/-- Events driving the supervisor: a build completion (`onEnd` with its
error count and the lock files visible at that moment), a debounce timer
firing, and a subprocess exiting on its own. -/
inductive WatchEvent
  | onEnd (numErrors : Nat) (locks : Lockfiles)
  | timerFire (tid : Nat)
  | procExit (pid : Nat)
deriving Repr, DecidableEq

/-- `if (currentProcess) { currentProcess.cancel(); currentProcess = null }`
— kill the held subprocess (removing it from the live set) and null the
handle. -/
def cancelCurrent (s : SupState) : SupState × List SupAction :=
  match s.currentProcess with
  | some p => ({ s with currentProcess := none,
                        liveProcs := s.liveProcs.filter (fun q => q ≠ p) },
               [SupAction.cancelled p])
  | none => (s, [])

/-- `if (restartTimeout) clearTimeout(restartTimeout)` — descheduling the
timer with the held identifier (the handle itself is not nulled). -/
def clearRestart (s : SupState) : SupState × List SupAction :=
  match s.restartTimeout with
  | some t => ({ s with
                  pendingTimers := s.pendingTimers.filter (fun x => x.1 ≠ t) },
               [SupAction.clearedTimer t])
  | none => (s, [])

/-- `restartTimeout = setTimeout(...)` — schedule the debounce timer that
will run `cmd`, storing its identifier. -/
def scheduleRestart (s : SupState) (cmd : String) : SupState × List SupAction :=
  ({ s with restartTimeout := some s.nextId,
            pendingTimers := (s.nextId, cmd) :: s.pendingTimers,
            nextId := s.nextId + 1 },
   [.scheduled s.nextId cmd])

/-- The `build.onEnd` callback body.  In source order: the
watching/had-errors guard, the first-build guard, the empty-command guard,
cancellation of the current process, command resolution (which may throw —
modelled as `SupAction.noStartCommandFound`, aborting the rest of the body),
`clearTimeout` of any pending restart, and scheduling of the new debounce
timer. -/
def onEndStep (watching : Bool) (watchCommand : Option String)
    (numErrors : Nat) (locks : Lockfiles) (s : SupState) :
    SupState × List SupAction :=
  if !watching || numErrors != 0 then (s, [])
  else if s.isFirstBuild then ({ s with isFirstBuild := false }, [])
  else if watchCommand = some "" then (s, [.skippedEmpty])
  else
    let sc := cancelCurrent s
    match resolveCmd watchCommand locks with
    | none => (sc.1, sc.2 ++ [.noStartCommandFound])
    | some cmd =>
      let st := clearRestart sc.1
      let ss := scheduleRestart st.1 cmd
      (ss.1, sc.2 ++ st.2 ++ ss.2)

/-- A pending debounce timer fires: the `setTimeout` callback spawns the
captured command and stores the handle in `currentProcess`.  A cleared or
already-fired identifier is a no-op. -/
def timerFireStep (s : SupState) (tid : Nat) : SupState × List SupAction :=
  match s.pendingTimers.find? (fun x => x.1 = tid) with
  | none => (s, [])
  | some tc =>
    ({ s with pendingTimers := s.pendingTimers.filter (fun x => x.1 ≠ tid),
              currentProcess := some s.nextId,
              liveProcs := s.nextId :: s.liveProcs,
              nextId := s.nextId + 1 },
     [.spawned s.nextId tc.2])

/-- A subprocess exits on its own (success, failure or external kill): it
leaves the live set; the closure's `currentProcess` handle is not nulled in
the source (`catch` only logs). -/
def procExitStep (s : SupState) (pid : Nat) : SupState × List SupAction :=
  ({ s with liveProcs := s.liveProcs.filter (fun q => q ≠ pid) }, [])

/-- One supervisor step.  `watching` and `watchCommand` are the plugin's
construction parameters (`options.watch`, `buildConfig.watch?.command`). -/
def step (watching : Bool) (watchCommand : Option String) :
    WatchEvent → SupState → SupState × List SupAction
  | .onEnd n l, s => onEndStep watching watchCommand n l s
  | .timerFire t, s => timerFireStep s t
  | .procExit p, s => procExitStep s p

/-- The initial supervisor state at plugin construction. -/
def initSup : SupState := {}

/-- Run a sequence of events from the initial state. -/
def run (watching : Bool) (watchCommand : Option String)
    (evs : List WatchEvent) : SupState :=
  evs.foldl (fun s e => (step watching watchCommand e s).1) initSup

/-! ## Supervisor invariant -/

/-- The supervisor's safety invariant: at most one live subprocess or
pending timer in total; every pending timer is the one `restartTimeout`
holds; every live subprocess is the one `currentProcess` holds. -/
def SupInv (s : SupState) : Prop :=
  s.liveProcs.length + s.pendingTimers.length ≤ 1
  ∧ (∀ t ∈ s.pendingTimers, s.restartTimeout = some t.1)
  ∧ (∀ p ∈ s.liveProcs, s.currentProcess = some p)

lemma inv_initSup : SupInv initSup := by
  refine ⟨by simp [initSup], ?_, ?_⟩ <;> simp [initSup]

lemma cancelCurrent_fst (s : SupState) (hInv : SupInv s) :
    (cancelCurrent s).1 = { s with currentProcess := none, liveProcs := [] } := by
  obtain ⟨h1, h2, h3⟩ := hInv
  unfold cancelCurrent
  cases hcp : s.currentProcess with
  | none =>
    have hl : s.liveProcs = [] := by
      cases hl : s.liveProcs with
      | nil => rfl
      | cons a tl =>
        have := h3 a (by rw [hl]; exact List.mem_cons_self a tl)
        rw [hcp] at this
        exact absurd this (by simp)
    simp only []
    cases s
    simp_all
  | some p =>
    have hl : s.liveProcs.filter (fun q => q ≠ p) = [] := by
      apply List.filter_eq_nil_iff.mpr
      intro a ha
      have := h3 a ha
      rw [hcp] at this
      simp only [Option.some.injEq] at this
      simp [this]
    simp only [hl]

lemma cancelCurrent_nextId (s : SupState) :
    (cancelCurrent s).1.nextId = s.nextId := by
  unfold cancelCurrent
  cases s.currentProcess <;> simp

lemma cancelCurrent_isFirstBuild (s : SupState) :
    (cancelCurrent s).1.isFirstBuild = s.isFirstBuild := by
  unfold cancelCurrent
  cases s.currentProcess <;> simp

lemma clearRestart_fst (s : SupState)
    (h2 : ∀ t ∈ s.pendingTimers, s.restartTimeout = some t.1) :
    (clearRestart s).1 = { s with pendingTimers := [] } := by
  unfold clearRestart
  cases hrt : s.restartTimeout with
  | none =>
    have hl : s.pendingTimers = [] := by
      cases hl : s.pendingTimers with
      | nil => rfl
      | cons a tl =>
        have := h2 a (by rw [hl]; exact List.mem_cons_self a tl)
        rw [hrt] at this
        exact absurd this (by simp)
    simp only []
    cases s
    simp_all
  | some t =>
    have hl : s.pendingTimers.filter (fun x => x.1 ≠ t) = [] := by
      apply List.filter_eq_nil_iff.mpr
      intro a ha
      have := h2 a ha
      rw [hrt] at this
      simp only [Option.some.injEq] at this
      simp [← this]
    simp only [hl]

/-- The supervisor state after a successful non-first `onEnd` under an
invariant-satisfying prior state `s`: process cancelled, old timer cleared,
one fresh debounce timer carrying `cmd`. -/
def afterSuccess (s : SupState) (cmd : String) : SupState where
  isFirstBuild := false
  currentProcess := none
  restartTimeout := some s.nextId
  liveProcs := []
  pendingTimers := [(s.nextId, cmd)]
  nextId := s.nextId + 1

lemma onEnd_success_char (watchCommand : Option String) (locks : Lockfiles)
    (s : SupState) (cmd : String) (hInv : SupInv s)
    (hF : s.isFirstBuild = false) (hwc : watchCommand ≠ some "")
    (hc : resolveCmd watchCommand locks = some cmd) :
    onEndStep true watchCommand 0 locks s =
      (afterSuccess s cmd,
       (cancelCurrent s).2 ++ (clearRestart (cancelCurrent s).1).2 ++
         [.scheduled s.nextId cmd]) := by
  have hsc := cancelCurrent_fst s hInv
  have h2' : ∀ t ∈ (cancelCurrent s).1.pendingTimers,
      (cancelCurrent s).1.restartTimeout = some t.1 := by
    rw [hsc]
    exact fun t ht => hInv.2.1 t ht
  have hst := clearRestart_fst (cancelCurrent s).1 h2'
  rw [hsc] at hst
  simp only [onEndStep, hF, hc, if_neg hwc]
  simp only [Bool.not_true, Bool.false_or, bne_self_eq_false,
    Bool.false_eq_true, if_false]
  rw [hsc, hst]
  simp [scheduleRestart, afterSuccess, hF]

lemma onEnd_nocmd_char (watchCommand : Option String) (locks : Lockfiles)
    (s : SupState) (hInv : SupInv s)
    (hF : s.isFirstBuild = false) (hwc : watchCommand ≠ some "")
    (hc : resolveCmd watchCommand locks = none) :
    onEndStep true watchCommand 0 locks s =
      ({ s with currentProcess := none, liveProcs := [] },
       (cancelCurrent s).2 ++ [.noStartCommandFound]) := by
  have hsc := cancelCurrent_fst s hInv
  simp only [onEndStep, hF, hc, if_neg hwc]
  simp only [Bool.not_true, Bool.false_or, bne_self_eq_false,
    Bool.false_eq_true, if_false]
  rw [hsc, hF]

lemma onEnd_first_char (watchCommand : Option String) (locks : Lockfiles)
    (s : SupState) (hF : s.isFirstBuild = true) :
    onEndStep true watchCommand 0 locks s =
      ({ s with isFirstBuild := false }, []) := by
  simp only [onEndStep, hF]
  simp only [Bool.not_true, Bool.false_or, bne_self_eq_false,
    Bool.false_eq_true, if_false, if_true]

lemma onEnd_errors_char (watching : Bool) (watchCommand : Option String)
    (locks : Lockfiles) (s : SupState) (n : Nat) (hn : n ≠ 0) :
    onEndStep watching watchCommand n locks s = (s, []) := by
  have : (!watching || n != 0) = true := by
    simp [hn]
  simp only [onEndStep, this, if_true]

lemma onEnd_notwatching_char (watchCommand : Option String)
    (locks : Lockfiles) (s : SupState) (n : Nat) :
    onEndStep false watchCommand n locks s = (s, []) := by
  simp only [onEndStep, Bool.not_false, Bool.true_or, if_true]

lemma onEnd_empty_char (locks : Lockfiles) (s : SupState)
    (hF : s.isFirstBuild = false) :
    onEndStep true (some "") 0 locks s = (s, [.skippedEmpty]) := by
  simp only [onEndStep, hF]
  simp only [Bool.not_true, Bool.false_or, bne_self_eq_false,
    Bool.false_eq_true, if_false, if_true]

lemma eq_singleton_of_len_le_one {α : Type} {l : List α} {a : α}
    (h : l.length ≤ 1) (ha : a ∈ l) : l = [a] := by
  cases l with
  | nil => cases ha
  | cons b tl =>
    cases tl with
    | nil =>
      simp only [List.mem_singleton] at ha
      simp [ha]
    | cons c tl2 => simp at h

lemma timerFire_char (s : SupState) (tid : Nat) (cmd : String)
    (hp : s.pendingTimers = [(tid, cmd)]) (hlive : s.liveProcs = []) :
    timerFireStep s tid =
      ({ s with pendingTimers := [], currentProcess := some s.nextId,
                liveProcs := [s.nextId], nextId := s.nextId + 1 },
       [.spawned s.nextId cmd]) := by
  simp [timerFireStep, hp, hlive]

lemma inv_onEnd (watching : Bool) (wc : Option String) (n : Nat)
    (l : Lockfiles) (s : SupState) (h : SupInv s) :
    SupInv (onEndStep watching wc n l s).1 := by
  cases watching with
  | false => rw [onEnd_notwatching_char]; exact h
  | true =>
    cases n with
    | succ m => rw [onEnd_errors_char true wc l s (m + 1) (by simp)]; exact h
    | zero =>
      by_cases hF : s.isFirstBuild
      · rw [onEnd_first_char wc l s hF]
        exact h
      · have hF' : s.isFirstBuild = false := by simpa using hF
        by_cases hwc : wc = some ""
        · subst hwc
          rw [onEnd_empty_char l s hF']
          exact h
        · cases hc : resolveCmd wc l with
          | none =>
            rw [onEnd_nocmd_char wc l s h hF' hwc hc]
            obtain ⟨h1, h2, h3⟩ := h
            refine ⟨by simp; omega, by simpa using h2, by simp⟩
          | some cmd =>
            rw [onEnd_success_char wc l s cmd h hF' hwc hc]
            refine ⟨by simp [afterSuccess], by simp [afterSuccess],
              by simp [afterSuccess]⟩

lemma inv_timerFire (s : SupState) (tid : Nat) (h : SupInv s) :
    SupInv (timerFireStep s tid).1 := by
  obtain ⟨h1, h2, h3⟩ := h
  cases hf : s.pendingTimers.find? (fun x => x.1 = tid) with
  | none =>
    simp only [timerFireStep, hf]
    exact ⟨h1, h2, h3⟩
  | some tc =>
    have htc : tc ∈ s.pendingTimers := List.mem_of_find?_eq_some hf
    have htid : tc.1 = tid := by
      have := List.find?_some hf
      simpa using this
    have hsingle : s.pendingTimers = [tc] :=
      eq_singleton_of_len_le_one (by omega) htc
    have hlive : s.liveProcs = [] := by
      have hlen : s.liveProcs.length = 0 := by
        rw [hsingle] at h1
        simp only [List.length_singleton] at h1
        omega
      exact List.eq_nil_of_length_eq_zero hlen
    rw [timerFire_char s tid tc.2 (by rw [hsingle, ← htid]) hlive]
    refine ⟨by simp, by simp, by simp⟩

lemma inv_procExit (s : SupState) (pid : Nat) (h : SupInv s) :
    SupInv (procExitStep s pid).1 := by
  obtain ⟨h1, h2, h3⟩ := h
  refine ⟨?_, ?_, ?_⟩
  · refine le_trans (Nat.add_le_add_right ?_ _) h1
    exact List.length_filter_le _ _
  · simpa [procExitStep] using h2
  · intro p hp
    simp only [procExitStep, List.mem_filter] at hp
    exact h3 p hp.1

lemma inv_step (w : Bool) (wc : Option String) (e : WatchEvent)
    (s : SupState) (h : SupInv s) : SupInv (step w wc e s).1 := by
  cases e with
  | onEnd n l => exact inv_onEnd w wc n l s h
  | timerFire t => exact inv_timerFire s t h
  | procExit p => exact inv_procExit s p h

lemma inv_foldl (w : Bool) (wc : Option String) (evs : List WatchEvent)
    (s : SupState) (h : SupInv s) :
    SupInv (evs.foldl (fun s e => (step w wc e s).1) s) := by
  induction evs generalizing s with
  | nil => exact h
  | cons e tl ih => exact ih _ (inv_step w wc e s h)

lemma inv_run (w : Bool) (wc : Option String) (evs : List WatchEvent) :
    SupInv (run w wc evs) :=
  inv_foldl w wc evs initSup inv_initSup

/-! ## Helper lemmas for the claims -/

lemma find?_append_notfound {α : Type} (p : α → Bool) (l1 l2 : List α)
    (h : ∀ a ∈ l1, p a = false) :
    List.find? p (l1 ++ l2) = List.find? p l2 := by
  induction l1 with
  | nil => rfl
  | cons a tl ih =>
    have ha := h a (List.mem_cons_self a tl)
    rw [List.cons_append, List.find?_cons_of_neg _ (by simp [ha]),
      ih (fun b hb => h b (List.mem_cons_of_mem a hb))]

lemma find?_filter_of_imp {α : Type} (p q : α → Bool) (l : List α)
    (h : ∀ a, p a = true → q a = true) :
    List.find? p (l.filter q) = List.find? p l := by
  induction l with
  | nil => rfl
  | cons a tl ih =>
    by_cases hq : q a = true
    · rw [List.filter_cons_of_pos hq]
      by_cases hp : p a = true
      · rw [List.find?_cons_of_pos _ hp, List.find?_cons_of_pos _ hp]
      · rw [List.find?_cons_of_neg _ (by simpa using hp),
          List.find?_cons_of_neg _ (by simpa using hp), ih]
    · have hp : ¬ p a = true := fun hc => hq (h a hc)
      rw [List.filter_cons_of_neg (by simpa using hq), ih,
        List.find?_cons_of_neg _ (by simpa using hp)]

lemma lookupDefine_setKey_same (m : List (String × String)) (k v : String) :
    lookupDefine (setKey m k v) k = some v := by
  unfold lookupDefine setKey
  rw [find?_append_notfound]
  · simp [List.find?]
  · intro a ha
    rw [List.mem_filter] at ha
    simpa using ha.2

lemma lookupDefine_setKey_other (m : List (String × String)) (k v k' : String)
    (h : k' ≠ k) :
    lookupDefine (setKey m k v) k' = lookupDefine m k' := by
  unfold lookupDefine setKey
  have h2 : List.find? (fun kv => kv.1 = k') (m.filter (fun kv => kv.1 ≠ k) ++ [(k, v)])
      = List.find? (fun kv => kv.1 = k') (m.filter (fun kv => kv.1 ≠ k)) := by
    cases hf : List.find? (fun kv => kv.1 = k') (m.filter (fun kv => kv.1 ≠ k)) with
    | some a => rw [List.find?_append, hf]; rfl
    | none =>
      rw [List.find?_append, hf]
      simp [List.find?, Ne.symm h]
  rw [h2, find?_filter_of_imp]
  intro a ha
  simp only [decide_eq_true_eq] at ha
  simp [ha, h]

lemma spawned_not_in_cancel (s : SupState) (pid : Nat) (c : String) :
    SupAction.spawned pid c ∉ (cancelCurrent s).2 := by
  unfold cancelCurrent
  cases s.currentProcess <;> simp

lemma spawned_not_in_clear (s : SupState) (pid : Nat) (c : String) :
    SupAction.spawned pid c ∉ (clearRestart s).2 := by
  unfold clearRestart
  cases s.restartTimeout <;> simp

lemma scheduled_not_in_cancel (s : SupState) (tid : Nat) (c : String) :
    SupAction.scheduled tid c ∉ (cancelCurrent s).2 := by
  unfold cancelCurrent
  cases s.currentProcess <;> simp

lemma spawn_requires_no_live (s : SupState) (tid : Nat) (hInv : SupInv s)
    (pid : Nat) (cmd : String)
    (hmem : SupAction.spawned pid cmd ∈ (timerFireStep s tid).2) :
    s.liveProcs = [] := by
  obtain ⟨h1, h2, h3⟩ := hInv
  cases hf : s.pendingTimers.find? (fun x => x.1 = tid) with
  | none => simp [timerFireStep, hf] at hmem
  | some tc =>
    have htc : tc ∈ s.pendingTimers := List.mem_of_find?_eq_some hf
    have hlen : 1 ≤ s.pendingTimers.length := by
      cases hl : s.pendingTimers with
      | nil => rw [hl] at htc; cases htc
      | cons a tl => simp
    exact List.eq_nil_of_length_eq_zero (by omega)

lemma fsRead_writeArtifacts (format : String) (defines : List (String × String))
    (tsPath ambientPath : String) (fs : FsState) (p : String) :
    fsRead (writeArtifacts format defines tsPath ambientPath fs) p
      = if ambientPath = p then some (ambientFileContent defines)
        else if tsPath = p then some (tsConfigContent format)
        else fsRead fs p := by
  unfold writeArtifacts fsWrite fsRead
  by_cases h1 : ambientPath = p <;> by_cases h2 : tsPath = p <;>
    simp [List.find?, h1, h2]

/-- With the empty-string command, the supervisor never owns a live process
or a pending timer. -/
def EmptyCmdInv (s : SupState) : Prop :=
  s.liveProcs = [] ∧ s.pendingTimers = []

lemma emptyCmd_step (e : WatchEvent) (s : SupState) (h : EmptyCmdInv s) :
    EmptyCmdInv (step true (some "") e s).1
    ∧ ∀ pid c, SupAction.spawned pid c ∉ (step true (some "") e s).2 := by
  obtain ⟨hl, hp⟩ := h
  cases e with
  | onEnd n locks =>
    cases n with
    | zero =>
      by_cases hF : s.isFirstBuild
      · rw [show step true (some "") (.onEnd 0 locks) s
            = onEndStep true (some "") 0 locks s from rfl,
          onEnd_first_char (some "") locks s hF]
        exact ⟨⟨hl, hp⟩, by simp⟩
      · rw [show step true (some "") (.onEnd 0 locks) s
            = onEndStep true (some "") 0 locks s from rfl,
          onEnd_empty_char locks s (by simpa using hF)]
        exact ⟨⟨hl, hp⟩, by simp⟩
    | succ m =>
      rw [show step true (some "") (.onEnd (m + 1) locks) s
          = onEndStep true (some "") (m + 1) locks s from rfl,
        onEnd_errors_char true (some "") locks s (m + 1) (by simp)]
      exact ⟨⟨hl, hp⟩, by simp⟩
  | timerFire tid =>
    have hf : s.pendingTimers.find? (fun x => x.1 = tid) = none := by
      rw [hp]; rfl
    refine ⟨?_, ?_⟩ <;> simp [step, timerFireStep, hf, hl, hp, EmptyCmdInv]
  | procExit pid =>
    refine ⟨⟨?_, ?_⟩, ?_⟩ <;> simp [step, procExitStep, hl, hp]

lemma emptyCmd_foldl (evs : List WatchEvent) (s : SupState) (h : EmptyCmdInv s) :
    EmptyCmdInv (evs.foldl (fun s e => (step true (some "") e s).1) s) := by
  induction evs generalizing s with
  | nil => exact h
  | cons e tl ih => exact ih _ (emptyCmd_step e s h).1

lemma emptyCmd_run (evs : List WatchEvent) : EmptyCmdInv (run true (some "") evs) :=
  emptyCmd_foldl evs initSup ⟨rfl, rfl⟩

/-! ## Claim theorems -/

/-- C1 (counterexample): with `--mode production` on the CLI and
`mode: 'development'` exported from `sern.build.js`, and no `NODE_ENV`, the
resolved mode is the file's value — the spread
`{ ...defaultBuildConfig, ...fileConfig }` lets the config file override
the CLI flag, so "CLI wins over the file" fails. -/
theorem c1_cli_loses_to_file_counterexample :
    (resolveConfig { mode := some "production" } "typescript"
        (some { mode := some "development" }) none).mode = "development"
    ∧ (resolveConfig { mode := some "production" } "typescript"
        (some { mode := some "development" }) none).mode ≠ "production"
    ∧ ({ mode := some "production" } : CliOptions).mode = some "production"
    ∧ ({ mode := some "development" } : FileConfig).mode = some "development" := by
  refine ⟨rfl, by decide, rfl, rfl⟩

/-- C1 (amended): for every field, fields present in the user config file
win over explicit CLI flags, which win over built-in defaults; for `mode`
only, a present `NODE_ENV` override wins over all of these (applied after
the file/CLI merge).  In particular, for every field set both on the CLI
and in the config file, the resolved value equals the file's value. -/
theorem c1_amended_field_precedence (opts : CliOptions) (language : String)
    (f : FileConfig) (nodeEnv : Option String) :
    (resolveConfig opts language (some f) nodeEnv).mode
      = (match nodeEnv with
         | some m => m
         | none => f.mode.getD (opts.mode.getD "development"))
    ∧ (resolveConfig opts language (some f) nodeEnv).format
      = f.format.getD (opts.format.getD "esm")
    ∧ (resolveConfig opts language (some f) nodeEnv).defineVersion
      = f.defineVersion.getD true
    ∧ (resolveConfig opts language (some f) nodeEnv).dropLabels
      = f.dropLabels.getD []
    ∧ (resolveConfig opts language (some f) nodeEnv).tsconfig
      = f.tsconfig.getD (resolveBuildConfig opts.tsconfig language)
    ∧ (resolveConfig opts language (some f) nodeEnv).env
      = f.env.getD (opts.env.getD ".env")
    ∧ (resolveConfig opts language (some f) nodeEnv).sourcemap
      = (match f.sourcemap with
         | some sm => sm
         | none => opts.sourceMaps)
    ∧ (resolveConfig opts language (some f) nodeEnv).watchCommand
      = (match f.watch with
         | some wc => wc
         | none => opts.watchCommand)
    ∧ (resolveConfig opts language none nodeEnv).mode
      = (match nodeEnv with
         | some m => m
         | none => opts.mode.getD "development") := by
  cases nodeEnv <;>
    simp [resolveConfig, mergeConfig, defaultBuildConfig]

/-- C10: the define map handed to the engine always binds `__DEV__` and
`__PROD__` to the string forms of `mode === 'development'` and
`mode === 'production'`, and always contains `__VERSION__`; with
`defineVersion` false it is bound to the literal string `undefined`, not
omitted. -/
theorem c10_define_map_keys (userDefine : Option (List (String × String)))
    (mode : String) (defineVersion : Bool) (versionJson : String) :
    lookupDefine (mkDefines userDefine mode defineVersion versionJson) "__DEV__"
      = some (jsBoolString (mode = "development"))
    ∧ lookupDefine (mkDefines userDefine mode defineVersion versionJson) "__PROD__"
      = some (jsBoolString (mode = "production"))
    ∧ lookupDefine (mkDefines userDefine mode defineVersion versionJson) "__VERSION__"
      = some (if defineVersion then versionJson else "undefined") := by
  unfold mkDefines
  refine ⟨?_, ?_, ?_⟩
  · rw [lookupDefine_setKey_other _ _ _ _ (by decide),
      lookupDefine_setKey_other _ _ _ _ (by decide),
      lookupDefine_setKey_same]
  · rw [lookupDefine_setKey_other _ _ _ _ (by decide),
      lookupDefine_setKey_same]
  · rw [lookupDefine_setKey_same]

/-- C9: for a fixed `(format, defines)` pair the two artifact writes are
idempotent full overwrites — the contents read back do not depend on the
prior file-system state at all (so writing twice yields byte-identical
contents both times), and the ambient artifact reads back exactly as the
pure content function of the defines. -/
theorem c9_artifact_writes_idempotent (format : String)
    (defines : List (String × String)) (tsPath ambientPath : String)
    (fs fs' : FsState) :
    fsRead (writeArtifacts format defines tsPath ambientPath
        (writeArtifacts format defines tsPath ambientPath fs)) ambientPath
      = fsRead (writeArtifacts format defines tsPath ambientPath fs) ambientPath
    ∧ fsRead (writeArtifacts format defines tsPath ambientPath
        (writeArtifacts format defines tsPath ambientPath fs)) tsPath
      = fsRead (writeArtifacts format defines tsPath ambientPath fs) tsPath
    ∧ fsRead (writeArtifacts format defines tsPath ambientPath fs) ambientPath
      = fsRead (writeArtifacts format defines tsPath ambientPath fs') ambientPath
    ∧ fsRead (writeArtifacts format defines tsPath ambientPath fs) tsPath
      = fsRead (writeArtifacts format defines tsPath ambientPath fs') tsPath
    ∧ fsRead (writeArtifacts format defines tsPath ambientPath fs) ambientPath
      = some (ambientFileContent defines)
    ∧ fsRead (writeArtifacts format defines tsPath ambientPath fs) tsPath
      = (if ambientPath = tsPath then some (ambientFileContent defines)
         else some (tsConfigContent format)) := by
  repeat rw [fsRead_writeArtifacts]
  by_cases h1 : ambientPath = tsPath <;> simp [h1]

/-- C8: whenever the resolved mode is neither `development` nor
`production`, `build` fails with the mode assertion before any file write,
any directory creation, and before the bundling engine is invoked — the
only effect already performed is the dotenv load. -/
theorem c8_invalid_mode_fails_before_effects (opts : CliOptions)
    (w : BuildWorld)
    (hargs : opts.watch = true ∨ opts.watchCommand = none)
    (hload : w.fileCfg ≠ .loadFailed)
    (hdev : (resolvedConfig opts w).mode ≠ "development")
    (hprod : (resolvedConfig opts w).mode ≠ "production") :
    (build opts w).2 = .error .invalidMode
    ∧ (build opts w).1 = [.loadDotenv (resolvedConfig opts w).env]
    ∧ ∀ e ∈ (build opts w).1,
        e ≠ .mkdirGen ∧ e ≠ .writeTsConfigFile ∧ e ≠ .writeAmbientFile
        ∧ e ≠ .engineContext := by
  have hc : (!opts.watch && opts.watchCommand.isSome) = false := by
    rcases hargs with h | h <;> simp [h]
  have hm : (!((resolvedConfig opts w).mode = "development"
      || (resolvedConfig opts w).mode = "production")) = true := by
    simp [hdev, hprod]
  simp only [build, hc, Bool.false_eq_true, if_false, if_neg hload, hm,
    if_true]
  refine ⟨trivial, trivial, ?_⟩
  intro e he
  simp only [List.mem_singleton] at he
  subst he
  refine ⟨by simp, by simp, by simp, by simp⟩

/-- A world whose env file injects `NODE_ENV=staging`: the resolved mode is
invalid. -/
def stagingWorld : BuildWorld where
  language := "typescript"
  fileCfg := .absent
  nodeEnv := some "staging"
  tsconfigOk := true
  genDirExists := true

/-- C8 witness: a concrete run — mode `staging` injected via `NODE_ENV` —
fails the assertion with only the dotenv load performed. -/
theorem c8_invalid_mode_witness :
    (build {} stagingWorld).2 = .error .invalidMode
    ∧ (build {} stagingWorld).1
      = [.loadDotenv (resolvedConfig {} stagingWorld).env]
    ∧ ∀ e ∈ (build {} stagingWorld).1,
        e ≠ .mkdirGen ∧ e ≠ .writeTsConfigFile ∧ e ≠ .writeAmbientFile
        ∧ e ≠ .engineContext :=
  c8_invalid_mode_fails_before_effects {} stagingWorld (Or.inr rfl)
    (by decide) (by decide) (by decide)

/-- C2: in every watch session — every event trace from the initial
supervisor state — the number of live supervisor-owned subprocesses is 0 or
1, never more; and whenever a debounce-timer firing spawns a subprocess,
the live set was already empty (the previously started subprocess was
cancelled at post-build-hook entry, before the replacement's timer was
scheduled). -/
theorem c2_at_most_one_live_process (watching : Bool) (wc : Option String)
    (evs : List WatchEvent) :
    (run watching wc evs).liveProcs.length ≤ 1
    ∧ ∀ tid pid cmd,
        SupAction.spawned pid cmd
          ∈ (step watching wc (.timerFire tid) (run watching wc evs)).2 →
        (run watching wc evs).liveProcs = [] := by
  have h := inv_run watching wc evs
  refine ⟨le_trans (Nat.le_add_right _ _) h.1, ?_⟩
  intro tid pid cmd hmem
  exact spawn_requires_no_live (run watching wc evs) tid h pid cmd hmem

/-- C2 witness: the bound instantiated on a concrete four-event trace that
schedules and fires a timer. -/
theorem c2_at_most_one_live_process_witness :
    (run true none [.onEnd 0 ⟨true, false, false, false, false⟩,
        .onEnd 0 ⟨true, false, false, false, false⟩,
        .timerFire 0,
        .onEnd 0 ⟨true, false, false, false, false⟩]).liveProcs.length ≤ 1
    ∧ ∀ tid pid cmd,
        SupAction.spawned pid cmd
          ∈ (step true none (.timerFire tid)
              (run true none [.onEnd 0 ⟨true, false, false, false, false⟩,
                .onEnd 0 ⟨true, false, false, false, false⟩,
                .timerFire 0,
                .onEnd 0 ⟨true, false, false, false, false⟩])).2 →
        (run true none [.onEnd 0 ⟨true, false, false, false, false⟩,
          .onEnd 0 ⟨true, false, false, false, false⟩,
          .timerFire 0,
          .onEnd 0 ⟨true, false, false, false, false⟩]).liveProcs = [] :=
  c2_at_most_one_live_process true none
    [.onEnd 0 ⟨true, false, false, false, false⟩,
     .onEnd 0 ⟨true, false, false, false, false⟩,
     .timerFire 0,
     .onEnd 0 ⟨true, false, false, false, false⟩]

/-- C3: two successful rebuild completions (both after the first build)
arriving within one debounce window — no timer fired in between — produce
no spawn at hook time, cancel the first event's scheduled timer, and leave
exactly one pending timer carrying the command resolved at the second
event; firing it spawns exactly one subprocess running that command. -/
theorem c3_debounce_collapse (wc : Option String) (evs : List WatchEvent)
    (l1 l2 : Lockfiles) (c1 c2 : String) (s s1 s2 : SupState)
    (a1 a2 : List SupAction)
    (hs : s = run true wc evs)
    (hF : s.isFirstBuild = false)
    (hwc : wc ≠ some "")
    (h1 : resolveCmd wc l1 = some c1)
    (h2 : resolveCmd wc l2 = some c2)
    (hr1 : step true wc (.onEnd 0 l1) s = (s1, a1))
    (hr2 : step true wc (.onEnd 0 l2) s1 = (s2, a2)) :
    (∀ pid c, SupAction.spawned pid c ∉ a1)
    ∧ (∀ pid c, SupAction.spawned pid c ∉ a2)
    ∧ SupAction.clearedTimer s.nextId ∈ a2
    ∧ s2.pendingTimers = [(s.nextId + 1, c2)]
    ∧ step true wc (.timerFire (s.nextId + 1)) s2
        = ({ s2 with pendingTimers := [],
                     currentProcess := some (s.nextId + 2),
                     liveProcs := [s.nextId + 2], nextId := s.nextId + 3 },
           [.spawned (s.nextId + 2) c2]) := by
  have hInv : SupInv s := hs ▸ inv_run true wc evs
  have e1 := onEnd_success_char wc l1 s c1 hInv hF hwc h1
  simp only [step] at hr1 hr2
  rw [e1] at hr1
  simp only [Prod.mk.injEq] at hr1
  obtain ⟨hs1, ha1⟩ := hr1
  subst hs1
  subst ha1
  have hInv1 : SupInv (afterSuccess s c1) :=
    ⟨by simp [afterSuccess], by simp [afterSuccess], by simp [afterSuccess]⟩
  have e2 := onEnd_success_char wc l2 (afterSuccess s c1) c2 hInv1 rfl hwc h2
  rw [e2] at hr2
  simp only [Prod.mk.injEq] at hr2
  obtain ⟨hs2, ha2⟩ := hr2
  subst hs2
  subst ha2
  have hcc : cancelCurrent (afterSuccess s c1) = (afterSuccess s c1, []) := by
    simp [cancelCurrent, afterSuccess]
  have hacts2 : (cancelCurrent (afterSuccess s c1)).2
      ++ (clearRestart (cancelCurrent (afterSuccess s c1)).1).2
      ++ [SupAction.scheduled (afterSuccess s c1).nextId c2]
      = [SupAction.clearedTimer s.nextId,
         SupAction.scheduled (s.nextId + 1) c2] := by
    rw [hcc]
    simp [clearRestart, afterSuccess]
  refine ⟨?_, ?_, ?_, ?_, ?_⟩
  · intro pid c hmem
    simp only [List.mem_append, List.mem_singleton] at hmem
    rcases hmem with (hmem | hmem) | hmem
    · exact spawned_not_in_cancel s pid c hmem
    · exact spawned_not_in_clear _ pid c hmem
    · cases hmem
  · intro pid c hmem
    rw [hacts2] at hmem
    simp at hmem
  · rw [hacts2]
    simp
  · simp [afterSuccess]
  · rw [show step true wc (.timerFire (s.nextId + 1))
          (afterSuccess (afterSuccess s c1) c2)
        = timerFireStep (afterSuccess (afterSuccess s c1) c2) (s.nextId + 1)
        from rfl,
      timerFire_char _ (s.nextId + 1) c2 rfl rfl]
    simp [afterSuccess]

/-- No lock file present. -/
def lkNone : Lockfiles := ⟨false, false, false, false, false⟩

/-- Only `package-lock.json` present. -/
def lkNpm : Lockfiles := ⟨true, false, false, false, false⟩

/-- Concrete state after the first successful build in watch mode. -/
def sC3 : SupState where
  isFirstBuild := false
  currentProcess := none
  restartTimeout := none
  liveProcs := []
  pendingTimers := []
  nextId := 0

/-- Concrete state after the second successful build scheduled timer 0. -/
def s1C3 : SupState where
  isFirstBuild := false
  currentProcess := none
  restartTimeout := some 0
  liveProcs := []
  pendingTimers := [(0, "npm start")]
  nextId := 1

/-- Concrete state after the third successful build replaced timer 0 with
timer 1. -/
def s2C3 : SupState where
  isFirstBuild := false
  currentProcess := none
  restartTimeout := some 1
  liveProcs := []
  pendingTimers := [(1, "npm start")]
  nextId := 2

/-- Actions of the second build's hook. -/
def a1C3 : List SupAction := [.scheduled 0 "npm start"]

/-- Actions of the third build's hook. -/
def a2C3 : List SupAction := [.clearedTimer 0, .scheduled 1 "npm start"]

/-- C3 witness: the collapse scenario on concrete inputs — no explicit
command, `package-lock.json` present, events two and three within the
window. -/
theorem c3_debounce_collapse_witness :
    (∀ pid c, SupAction.spawned pid c ∉ a1C3)
    ∧ (∀ pid c, SupAction.spawned pid c ∉ a2C3)
    ∧ SupAction.clearedTimer sC3.nextId ∈ a2C3
    ∧ s2C3.pendingTimers = [(sC3.nextId + 1, "npm start")]
    ∧ step true none (.timerFire (sC3.nextId + 1)) s2C3
        = ({ s2C3 with pendingTimers := [],
                       currentProcess := some (sC3.nextId + 2),
                       liveProcs := [sC3.nextId + 2],
                       nextId := sC3.nextId + 3 },
           [.spawned (sC3.nextId + 2) "npm start"]) :=
  c3_debounce_collapse none [.onEnd 0 lkNone] lkNpm lkNpm "npm start"
    "npm start" sC3 s1C3 s2C3 a1C3 a2C3 (by decide) rfl (by decide) rfl rfl
    (by decide) (by decide)

/-- C4: in watch mode, the first successful build completion only clears
the first-build flag — no debounce timer is scheduled and no subprocess is
spawned, for every configured command and every lock-file constellation. -/
theorem c4_first_build_marks_only (wc : Option String) (locks : Lockfiles)
    (s : SupState) (hF : s.isFirstBuild = true) :
    step true wc (.onEnd 0 locks) s = ({ s with isFirstBuild := false }, []) :=
  onEnd_first_char wc locks s hF

/-- C4 witness: the first successful build from the initial state, with an
explicit command configured and a lock file present. -/
theorem c4_first_build_marks_only_witness :
    step true (some "node .") (.onEnd 0 lkNpm) initSup
      = ({ initSup with isFirstBuild := false }, []) :=
  c4_first_build_marks_only (some "node .") lkNpm initSup rfl

/-- C5: a post-build event reporting one or more errors is a complete
no-op: state unchanged (no cancellation, no spawn, no timer cancel or
schedule) and no action taken, whatever the watch flag, command and current
state. -/
theorem c5_errored_build_noop (watching : Bool) (wc : Option String)
    (n : Nat) (locks : Lockfiles) (s : SupState) (hn : n ≠ 0) :
    step watching wc (.onEnd n locks) s = (s, []) :=
  onEnd_errors_char watching wc locks s n hn

/-- C5 witness: an errored rebuild on a mid-session state with a live
process and a pending timer changes nothing. -/
theorem c5_errored_build_noop_witness :
    step true none (.onEnd 2 lkNpm) s1C3 = (s1C3, []) :=
  c5_errored_build_noop true none 2 lkNpm s1C3 (by decide)

/-- C6: a restart attempt with no explicit command and no recognizable lock
file fails with `NoStartCommandFound`, is reported, spawns nothing and
schedules nothing — and the failure is local to that attempt: the first
build stays marked and a subsequent successful rebuild (here with a lock
file present) schedules and, on firing, spawns normally. -/
theorem c6_no_start_command_skips_attempt (evs : List WatchEvent)
    (locks locks2 : Lockfiles) (c2 : String) (s s1 s2 : SupState)
    (a1 a2 : List SupAction)
    (hs : s = run true none evs)
    (hF : s.isFirstBuild = false)
    (hlocks : probeLock locks = none)
    (h2 : probeLock locks2 = some c2)
    (hr1 : step true none (.onEnd 0 locks) s = (s1, a1))
    (hr2 : step true none (.onEnd 0 locks2) s1 = (s2, a2)) :
    SupAction.noStartCommandFound ∈ a1
    ∧ (∀ pid c, SupAction.spawned pid c ∉ a1)
    ∧ (∀ tid c, SupAction.scheduled tid c ∉ a1)
    ∧ s1.pendingTimers = s.pendingTimers
    ∧ s1.isFirstBuild = false
    ∧ SupAction.scheduled s1.nextId c2 ∈ a2
    ∧ step true none (.timerFire s1.nextId) s2
        = ({ s2 with pendingTimers := [],
                     currentProcess := some s2.nextId,
                     liveProcs := [s2.nextId], nextId := s2.nextId + 1 },
           [.spawned s2.nextId c2]) := by
  have hInv : SupInv s := hs ▸ inv_run true none evs
  have hwc : (none : Option String) ≠ some "" := by simp
  have hc1 : resolveCmd none locks = none := hlocks
  have e1 := onEnd_nocmd_char none locks s hInv hF hwc hc1
  simp only [step] at hr1 hr2
  rw [e1] at hr1
  simp only [Prod.mk.injEq] at hr1
  obtain ⟨hs1, ha1⟩ := hr1
  have hInv1 : SupInv s1 := by
    have h := inv_onEnd true none 0 locks s hInv
    rw [e1] at h
    rw [← hs1]
    exact h
  have hF1 : s1.isFirstBuild = false := by rw [← hs1]; exact hF
  have hc2 : resolveCmd none locks2 = some c2 := h2
  have e2 := onEnd_success_char none locks2 s1 c2 hInv1 hF1 hwc hc2
  rw [e2] at hr2
  simp only [Prod.mk.injEq] at hr2
  obtain ⟨hs2, ha2⟩ := hr2
  subst ha1
  subst ha2
  refine ⟨by simp, ?_, ?_, by rw [← hs1], hF1, by simp, ?_⟩
  · intro pid c hmem
    simp only [List.mem_append, List.mem_singleton] at hmem
    rcases hmem with hmem | hmem
    · exact spawned_not_in_cancel s pid c hmem
    · cases hmem
  · intro tid c hmem
    simp only [List.mem_append, List.mem_singleton] at hmem
    rcases hmem with hmem | hmem
    · exact scheduled_not_in_cancel s tid c hmem
    · cases hmem
  · rw [show step true none (.timerFire s1.nextId) s2
        = timerFireStep s2 s1.nextId from rfl, ← hs2,
      timerFire_char (afterSuccess s1 c2) s1.nextId c2 rfl rfl]

/-- C6 witness: the scenario on concrete states — second build with no
command and no lock file (skipped, reported), third build with
`package-lock.json` (schedules `npm start`, which the timer then spawns). -/
theorem c6_no_start_command_skips_attempt_witness :
    SupAction.noStartCommandFound ∈ [SupAction.noStartCommandFound]
    ∧ (∀ pid c, SupAction.spawned pid c ∉ [SupAction.noStartCommandFound])
    ∧ (∀ tid c, SupAction.scheduled tid c ∉ [SupAction.noStartCommandFound])
    ∧ sC3.pendingTimers = sC3.pendingTimers
    ∧ sC3.isFirstBuild = false
    ∧ SupAction.scheduled sC3.nextId "npm start" ∈ a1C3
    ∧ step true none (.timerFire sC3.nextId) s1C3
        = ({ s1C3 with pendingTimers := [],
                       currentProcess := some s1C3.nextId,
                       liveProcs := [s1C3.nextId],
                       nextId := s1C3.nextId + 1 },
           [.spawned s1C3.nextId "npm start"]) :=
  c6_no_start_command_skips_attempt [.onEnd 0 lkNone] lkNone lkNpm
    "npm start" sC3 sC3 s1C3 [.noStartCommandFound] a1C3 (by decide) rfl rfl
    rfl (by decide) (by decide)

/-- C7 (counterexample): with the watch command absent (`undefined`) and
`package-lock.json` present, the second successful build's debounce timer
fires a subprocess running `npm start` — so "absent means no run step"
fails; only the empty string skips the run step. -/
theorem c7_absent_command_spawns_counterexample :
    (step true none (.timerFire 0)
        (run true none [.onEnd 0 lkNpm, .onEnd 0 lkNpm])).2
      = [.spawned 1 "npm start"]
    ∧ (step true none (.timerFire 0)
        (run true none [.onEnd 0 lkNpm, .onEnd 0 lkNpm])).1.liveProcs
      = [1] := by
  decide

/-- C7 (amended): if the configured watch command is the empty string, no
run step is performed — on any trace the supervisor owns no process and no
timer, and no event makes its hook spawn; when the command is absent, the
hook instead falls back to the package manager's start command resolved
from the lock files and schedules it after every successful non-first
build. -/
theorem c7_empty_no_run_absent_falls_back (evs evs2 : List WatchEvent)
    (e : WatchEvent) (l : Lockfiles) (c : String)
    (hl : probeLock l = some c)
    (hF : (run true none evs2).isFirstBuild = false) :
    (run true (some "") evs).liveProcs = []
    ∧ (run true (some "") evs).pendingTimers = []
    ∧ (∀ pid cc, SupAction.spawned pid cc
        ∉ (step true (some "") e (run true (some "") evs)).2)
    ∧ SupAction.scheduled (run true none evs2).nextId c
        ∈ (step true none (.onEnd 0 l) (run true none evs2)).2 := by
  obtain ⟨hl1, hp1⟩ := emptyCmd_run evs
  refine ⟨hl1, hp1, (emptyCmd_step e _ ⟨hl1, hp1⟩).2, ?_⟩
  have hInv := inv_run true none evs2
  have hc : resolveCmd none l = some c := hl
  rw [show step true none (.onEnd 0 l) (run true none evs2)
      = onEndStep true none 0 l (run true none evs2) from rfl,
    onEnd_success_char none l _ c hInv hF (by simp) hc]
  simp

/-- C7 amended witness: concrete traces for both halves — empty command
never runs anything; absent command schedules `npm start` from the lock
file. -/
theorem c7_empty_no_run_absent_falls_back_witness :
    (run true (some "") [.onEnd 0 lkNpm, .onEnd 0 lkNpm]).liveProcs = []
    ∧ (run true (some "") [.onEnd 0 lkNpm, .onEnd 0 lkNpm]).pendingTimers = []
    ∧ (∀ pid cc, SupAction.spawned pid cc
        ∉ (step true (some "") (.onEnd 0 lkNpm)
            (run true (some "") [.onEnd 0 lkNpm, .onEnd 0 lkNpm])).2)
    ∧ SupAction.scheduled (run true none [.onEnd 0 lkNone]).nextId "npm start"
        ∈ (step true none (.onEnd 0 lkNpm)
            (run true none [.onEnd 0 lkNone])).2 :=
  c7_empty_no_run_absent_falls_back [.onEnd 0 lkNpm, .onEnd 0 lkNpm]
    [.onEnd 0 lkNone] (.onEnd 0 lkNpm) lkNpm "npm start" rfl (by decide)
